import Mathlib

/-!
Shallow embedding of the photo-ranking core:
the history replayer (rating engine, upset-sensitive variant) and the
matchmaking sampler, with floating point numbers idealised as exact reals
for the replayer and exact rationals for the sampler (the sampler performs
only field-free comparisons and linear arithmetic).
-/

/-- Immutable catalog item: identity plus display metadata. -/
structure Photo where
  id : String
  url : String
  title : String
  width : Option Nat := none
  height : Option Nat := none
  deriving DecidableEq, Repr

/-- Append-only log entry for one vote: winner, loser and the wall-clock
timestamp used for replay ordering. -/
structure MatchResult where
  winnerId : String
  loserId : String
  timestamp : Int
  deriving DecidableEq, Repr

/-- Derived per-item state produced by the replayer, parameterised by the
numeric carrier (the real numbers for the replayer, the rationals for the
sampler). Mirrors the RankedPhoto interface extending Photo. -/
structure RankedPhoto (R : Type) extends Photo where
  rating : R
  -- the source field is named matches; matches is a reserved token in Lean
  matchCount : Nat
  wins : Nat
  losses : Nat
  uncertainty : R
  rank : Option Nat := none
  deriving DecidableEq, Repr

/-! ## Stable insertion sort

JavaScript Array.prototype.sort with a comparator is a stable sort; we model
it by a stable insertion sort parameterised by the strict before-relation
derived from the comparator (x goes before y exactly when compare x y < 0).
-/

/-- Insert x into l, placing it immediately before the first element y with
lt x y; equal elements keep their original relative order. -/
def insertBy {A : Type} (lt : A → A → Bool) (x : A) : List A → List A
  | [] => [x]
  | y :: ys => if lt x y then x :: y :: ys else y :: insertBy lt x ys

/-- Stable sort: fold the list from the left, inserting each element after
any element it ties with. -/
def sortBy {A : Type} (lt : A → A → Bool) (l : List A) : List A :=
  l.foldl (fun acc x => insertBy lt x acc) []

/-! ## History replayer (rating engine, upset-sensitive variant)

Embedding of calculateRankings and its helpers. Floating point arithmetic
is idealised as exact real arithmetic, so the definitions in this section
are noncomputable; all of them still unfold definitionally.
-/

def INITIAL_RATING : ℝ := 1000

/-- High sigma for new items. -/
def INITIAL_UNCERTAINTY : ℝ := 350

/-- Floor for uncertainty (never fully certain). -/
def MIN_UNCERTAINTY : ℝ := 40

/-- How much uncertainty increases on an upset. -/
def VOLATILITY_INFLATION : ℝ := 50

/-- How fast uncertainty collapses on a standard match. -/
def UNCERTAINTY_DECAY : ℝ := 0.92

/-- Expected score for player A against player B:
P(A wins) = 1 / (1 + 10 ^ ((Rb - Ra) / 400)). -/
noncomputable def getExpectedScore (ratingA ratingB : ℝ) : ℝ :=
  1 / (1 + (10 : ℝ) ^ ((ratingB - ratingA) / 400))

/-- The fixed prior every item is initialised to (the object built for each
photo when the replayer seeds its map). -/
def initRanked (p : Photo) : RankedPhoto ℝ :=
  { toPhoto := p
    rating := INITIAL_RATING
    matchCount := 0
    wins := 0
    losses := 0
    uncertainty := INITIAL_UNCERTAINTY }

/-- One photoMap.set step: overwrite in place when the key is present
(JavaScript Map.set keeps the original insertion position of the key),
append otherwise. -/
def insertPhoto (s : List (RankedPhoto ℝ)) (p : Photo) : List (RankedPhoto ℝ) :=
  if s.any (fun q => q.id == p.id) then
    s.map (fun q => if q.id = p.id then initRanked p else q)
  else
    s ++ [initRanked p]

/-- Seeding of the replayer map: every photo at the fixed prior, in
input-item order (Map iteration order is key-insertion order). -/
def initState (photos : List Photo) : List (RankedPhoto ℝ) :=
  photos.foldl insertPhoto []

/-- photoMap.get: the (unique) entry with the given id. -/
def findById {R : Type} (s : List (RankedPhoto R)) (i : String) : Option (RankedPhoto R) :=
  s.find? (fun p => p.id == i)

/-- A single field-mutation of the object stored under key i: every entry
whose id matches is replaced by its updated version (keys are unique in any
state the replayer builds, so exactly one entry changes). -/
def updateById {R : Type} (s : List (RankedPhoto R)) (i : String)
    (f : RankedPhoto R → RankedPhoto R) : List (RankedPhoto R) :=
  s.map (fun p => if p.id = i then f p else p)

/-- The body of the per-event fold of calculateRankings, for an event whose
two participants were found in the map. The sequence of updateById calls
mirrors the sequence of object mutations in the source, so an event whose
winner and loser alias the same object behaves exactly as in the source. -/
noncomputable def applyMatchCore (s : List (RankedPhoto ℝ)) (ev : MatchResult)
    (winner loser : RankedPhoto ℝ) : List (RankedPhoto ℝ) :=
  let Rw := winner.rating
  let Rl := loser.rating
  let Ew := getExpectedScore Rw Rl
  let Kw := winner.uncertainty / 400 * 80
  let Kl := loser.uncertainty / 400 * 80
  let s1 := updateById s ev.winnerId (fun p => { p with rating := Rw + Kw * (1 - Ew) })
  let s2 := updateById s1 ev.loserId (fun p => { p with rating := Rl + Kl * (0 - (1 - Ew)) })
  let s3 :=
    if Ew < 0.25 then
      -- upset: inflate uncertainty, capped at the initial ceiling
      let s3a := updateById s2 ev.winnerId
        (fun p => { p with uncertainty := min INITIAL_UNCERTAINTY (p.uncertainty + VOLATILITY_INFLATION) })
      updateById s3a ev.loserId
        (fun p => { p with uncertainty := min INITIAL_UNCERTAINTY (p.uncertainty + VOLATILITY_INFLATION) })
    else
      -- expected result: decay uncertainty toward the floor
      let s3a := updateById s2 ev.winnerId
        (fun p => { p with uncertainty := max MIN_UNCERTAINTY (p.uncertainty * UNCERTAINTY_DECAY) })
      updateById s3a ev.loserId
        (fun p => { p with uncertainty := max MIN_UNCERTAINTY (p.uncertainty * UNCERTAINTY_DECAY) })
  let s4 := updateById s3 ev.winnerId
    (fun p => { p with wins := p.wins + 1, matchCount := p.matchCount + 1 })
  updateById s4 ev.loserId
    (fun p => { p with losses := p.losses + 1, matchCount := p.matchCount + 1 })

/-- One event of the fold: look both participants up; if either is missing
the event is skipped (the state is returned unchanged). -/
noncomputable def applyMatch (s : List (RankedPhoto ℝ)) (ev : MatchResult) :
    List (RankedPhoto ℝ) :=
  match findById s ev.winnerId, findById s ev.loserId with
  | some winner, some loser => applyMatchCore s ev winner loser
  | _, _ => s

/-- Sort matches chronologically (comparator a.timestamp - b.timestamp,
ascending, stable). -/
def sortEventsByTs (evs : List MatchResult) : List MatchResult :=
  sortBy (fun a b => decide (a.timestamp < b.timestamp)) evs

/-- The comparator (a, b) => b.rating - a.rating of the final sort: a comes
strictly before b exactly when a.rating > b.rating. -/
noncomputable def ratingDescLt (a b : RankedPhoto ℝ) : Bool :=
  decide (b.rating < a.rating)

/-- calculateRankings: re-calculate the entire state from the history of
matches, then return the map values sorted by rating descending. -/
noncomputable def calculateRankings (photos : List Photo) (matchList : List MatchResult) :
    List (RankedPhoto ℝ) :=
  sortBy ratingDescLt ((sortEventsByTs matchList).foldl applyMatch (initState photos))

/-! ## Matchmaking sampler

Embedding of selectNextPair (the variant with repeat avoidance). Randomness
is modelled by an explicit finite list of draws from Math.random, each a
rational in the interval from 0 inclusive to 1 exclusive; every primitive
draw pops one element. If the draw list runs out, or an array access misses
(which in the browser surfaces as an undefined dereference), the call
produces no pair: outcome stuck. Ratings are exact rationals here since the
sampler only compares and subtracts them.
-/

/-- The rationale tag attached to the chosen pair. -/
structure BattleContext where
  label : String
  description : String
  color : String
  deriving DecidableEq, Repr

def ctxPlacement : BattleContext :=
  { label := "CLASSIFYING NEW ASSET"
    description := "Determining initial baseline against established anchors."
    color := "text-blue-400" }

def ctxExploration : BattleContext :=
  { label := "EXPLORATION MODE"
    description := "Randomized pairing to ensure global optimization."
    color := "text-purple-400" }

def ctxVolatility : BattleContext :=
  { label := "VERIFYING VOLATILITY"
    description := "One or both assets have inconsistent voting records."
    color := "text-orange-400" }

def ctxTie : BattleContext :=
  { label := "QUALITY TIE-BREAKER"
    description := "Assets are statistically equivalent. Choose carefully."
    color := "text-green-400" }

def ctxRefinement : BattleContext :=
  { label := "REFINEMENT"
    description := "Fine-tuning placement on the leaderboard."
    color := "text-zinc-400" }

def ctxFallback : BattleContext :=
  { label := "FALLBACK"
    description := "System recovery pairing."
    color := "text-zinc-500" }

/-- Pop one Math.random draw. -/
def drawQ (rs : List ℚ) : Option (ℚ × List ℚ) :=
  match rs with
  | [] => none
  | r :: rest => some (r, rest)

/-- Math.floor(r * n): the (possibly negative) array index produced from a
draw r against a pool of size n. -/
def floorIdx (r : ℚ) (n : Nat) : Int :=
  ⌊r * n⌋

/-- Array indexing with a JavaScript number: a negative or out-of-range
index reads undefined, modelled as none. -/
def getAtInt {A : Type} (l : List A) (i : Int) : Option A :=
  if 0 ≤ i then l[i.toNat]? else none

/-- Draw an index into a pool of size n. -/
def pickIdx (n : Nat) (rs : List ℚ) : Option (Int × List ℚ) :=
  match drawQ rs with
  | none => none
  | some (r, rest) => some (floorIdx r n, rest)

/-- pool[Math.floor(Math.random() * pool.length)]. -/
def pickFrom {A : Type} (l : List A) (rs : List ℚ) : Option (A × List ℚ) :=
  match pickIdx l.length rs with
  | none => none
  | some (i, rest) =>
    match getAtInt l i with
    | none => none
    | some a => some (a, rest)

/-- The rejection loop of the exploration branch: redraw idxB while it
equals idxA. A draw list on which the loop never exits yields none. -/
def drawDistinctIdx (n : Nat) (a : Int) : List ℚ → Option (Int × List ℚ)
  | [] => none
  | r :: rest =>
    if floorIdx r n = a then drawDistinctIdx n a rest
    else some (floorIdx r n, rest)

/-- The linear scan of the refinement branch: the photo other than
candidateA whose rating is closest to that of candidateA, strict improvement
only (first seen wins ties). The accumulator carries the best photo so far
with its distance; the empty accumulator plays the role of minDiff
= Infinity. -/
def bestMatchScan (a : RankedPhoto ℚ) :
    List (RankedPhoto ℚ) → Option (RankedPhoto ℚ × ℚ) → Option (RankedPhoto ℚ × ℚ)
  | [], acc => acc
  | p :: rest, acc =>
    if p.id = a.id then bestMatchScan a rest acc
    else
      match acc with
      | none => bestMatchScan a rest (some (p, |p.rating - a.rating|))
      | some (b, m) =>
        if |p.rating - a.rating| < m then bestMatchScan a rest (some (p, |p.rating - a.rating|))
        else bestMatchScan a rest (some (b, m))

/-- One iteration of the selection attempt loop: draw the policy selector r
and run the chosen policy (placement, exploration or refinement), producing
a candidate pair, its rationale and the remaining draws. -/
def sampleAttempt (photos : List (RankedPhoto ℚ)) (rs : List ℚ) :
    Option ((RankedPhoto ℚ × RankedPhoto ℚ × BattleContext) × List ℚ) :=
  match drawQ rs with
  | none => none
  | some (r, rs1) =>
    let unratedPhotos := photos.filter (fun p => p.matchCount == 0)
    if 0 < unratedPhotos.length ∧ (0.1 : ℚ) < r then
      -- placement: new asset against an anchor
      match pickFrom unratedPhotos rs1 with
      | none => none
      | some (candidateA, rs2) =>
        let anchors := photos.filter (fun p =>
          decide (3 ≤ p.matchCount ∧ |p.rating - 1000| < 150))
        let opponentPool :=
          if 0 < anchors.length then anchors
          else photos.filter (fun p => !(p.id == candidateA.id) && decide (0 < p.matchCount))
        let finalPool :=
          if 0 < opponentPool.length then opponentPool
          else photos.filter (fun p => !(p.id == candidateA.id))
        match pickFrom finalPool rs2 with
        | none => none
        | some (candidateB, rs3) => some ((candidateA, candidateB, ctxPlacement), rs3)
    else if r < (0.2 : ℚ) then
      -- exploration: two distinct uniform indices
      match pickIdx photos.length rs1 with
      | none => none
      | some (idxA, rs2) =>
        match drawDistinctIdx photos.length idxA rs2 with
        | none => none
        | some (idxB, rs3) =>
          match getAtInt photos idxA, getAtInt photos idxB with
          | some a, some b => some ((a, b, ctxExploration), rs3)
          | _, _ => none
    else
      -- refinement: a most-uncertain photo against its closest rating
      let uncertainPhotos := sortBy (fun a b => decide (b.uncertainty < a.uncertainty)) photos
      let topCandidates := uncertainPhotos.take (min 10 uncertainPhotos.length)
      match pickFrom topCandidates rs1 with
      | none => none
      | some (candidateA, rs2) =>
        let scan := bestMatchScan candidateA photos none
        let best :=
          match scan with
          | some (b, _) => some b
          | none => photos.find? (fun p => !(p.id == candidateA.id))
        match best with
        | none => none
        | some candidateB =>
          let ctx :=
            if 150 < candidateA.uncertainty ∨ 150 < candidateB.uncertainty then ctxVolatility
            else if |candidateA.rating - candidateB.rating| < 20 then ctxTie
            else ctxRefinement
          some ((candidateA, candidateB, ctx), rs2)

/-- The post-loop safety fallback of the source (reachable only if the
attempt loop exits without a pair): a random distinct pair. -/
def fallbackSelect (photos : List (RankedPhoto ℚ)) (rs : List ℚ) :
    Option ((RankedPhoto ℚ × RankedPhoto ℚ × BattleContext) × List ℚ) :=
  match pickIdx photos.length rs with
  | none => none
  | some (idxA, rs1) =>
    match drawDistinctIdx photos.length idxA rs1 with
    | none => none
    | some (idxB, rs2) =>
      match getAtInt photos idxA, getAtInt photos idxB with
      | some a, some b => some ((a, b, ctxFallback), rs2)
      | _, _ => none

def MAX_ATTEMPTS : Nat := 5

/-- The retry loop: run sampleAttempt with the remaining fuel; accept the
candidate pair unless it repeats the previously presented pair, except on
the final attempt, which accepts the repeat rather than looping. -/
def attemptLoop (photos : List (RankedPhoto ℚ)) (lastPair : List String) :
    Nat → List ℚ → Option ((RankedPhoto ℚ × RankedPhoto ℚ × BattleContext) × List ℚ)
  | 0, rs => fallbackSelect photos rs
  | Nat.succ k, rs =>
    match sampleAttempt photos rs with
    | none => none
    | some ((a, b, ctx), rs1) =>
      let isRepeat := lastPair.contains a.id && lastPair.contains b.id
      if !isRepeat || k == 0 then some ((a, b, ctx), rs1)
      else attemptLoop photos lastPair k rs1

/-- The observable outcome of one selectNextPair call. -/
inductive SelectOutcome where
  | insufficient : SelectOutcome
  | stuck : SelectOutcome
  | pair : RankedPhoto ℚ → RankedPhoto ℚ → BattleContext → SelectOutcome
  deriving DecidableEq, Repr

/-- selectNextPair: require at least two photos, pick a candidate pair via
the attempt loop, then randomise the left/right presentation order. -/
def selectNextPair (photos : List (RankedPhoto ℚ)) (lastPair : List String)
    (rs : List ℚ) : SelectOutcome :=
  if photos.length < 2 then SelectOutcome.insufficient
  else
    let validPhotos := photos.filter (fun _ => true)
    match attemptLoop validPhotos lastPair MAX_ATTEMPTS rs with
    | none => SelectOutcome.stuck
    | some ((photoA, photoB, ctx), rs1) =>
      match drawQ rs1 with
      | none => SelectOutcome.stuck
      | some (r, _) =>
        if (0.5 : ℚ) < r then SelectOutcome.pair photoA photoB ctx
        else SelectOutcome.pair photoB photoA ctx

/-- The state of the winner after one applied event between distinct
participants, as a function of the two prior states. -/
noncomputable def postWinner (w l : RankedPhoto ℝ) : RankedPhoto ℝ :=
  { w with
    rating := w.rating + w.uncertainty / 400 * 80 * (1 - getExpectedScore w.rating l.rating)
    uncertainty :=
      if getExpectedScore w.rating l.rating < 0.25 then
        min INITIAL_UNCERTAINTY (w.uncertainty + VOLATILITY_INFLATION)
      else
        max MIN_UNCERTAINTY (w.uncertainty * UNCERTAINTY_DECAY)
    wins := w.wins + 1
    matchCount := w.matchCount + 1 }

/-- The state of the loser after one applied event between distinct
participants, as a function of the two prior states. -/
noncomputable def postLoser (w l : RankedPhoto ℝ) : RankedPhoto ℝ :=
  { l with
    rating := l.rating + l.uncertainty / 400 * 80 * (0 - (1 - getExpectedScore w.rating l.rating))
    uncertainty :=
      if getExpectedScore w.rating l.rating < 0.25 then
        min INITIAL_UNCERTAINTY (l.uncertainty + VOLATILITY_INFLATION)
      else
        max MIN_UNCERTAINTY (l.uncertainty * UNCERTAINTY_DECAY)
    losses := l.losses + 1
    matchCount := l.matchCount + 1 }


/-! ## Concrete scenario data -/

def phA : Photo := { id := "A", url := "urlA", title := "A" }

def phB : Photo := { id := "B", url := "urlB", title := "B" }

def phC : Photo := { id := "C", url := "urlC", title := "C" }

/-- A beats B at time 1. -/
def evAB : MatchResult := { winnerId := "A", loserId := "B", timestamp := 1 }

/-- B beats A at time 2. -/
def evBA2 : MatchResult := { winnerId := "B", loserId := "A", timestamp := 2 }

/-- A beats A at time 1: an event whose two participant ids coincide and
are present, so it is applied, with winner and loser aliasing one object. -/
def evAA : MatchResult := { winnerId := "A", loserId := "A", timestamp := 1 }

/-- A two-item rational snapshot used to exercise the sampler. -/
def qpA : RankedPhoto ℚ :=
  { id := "a", url := "ua", title := "a", rating := 1000,
    matchCount := 1, wins := 1, losses := 0, uncertainty := 322 }

def qpB : RankedPhoto ℚ :=
  { id := "b", url := "ub", title := "b", rating := 990,
    matchCount := 1, wins := 0, losses := 1, uncertainty := 322 }

/-! ## Lemmas: the stable sort -/

theorem perm_insertBy {A : Type} (lt : A → A → Bool) (x : A) (l : List A) :
    List.Perm (insertBy lt x l) (x :: l) := by
  induction l with
  | nil => simp [insertBy]
  | cons y ys ih =>
    by_cases h : lt x y = true
    · simp [insertBy, h]
    · simp only [insertBy, h]
      rw [if_neg (by simp [h])]
      exact (List.Perm.cons y ih).trans (List.Perm.swap x y ys)

theorem perm_sortBy_aux {A : Type} (lt : A → A → Bool) (l acc : List A) :
    List.Perm (l.foldl (fun acc x => insertBy lt x acc) acc) (l ++ acc) := by
  induction l generalizing acc with
  | nil => simp
  | cons x xs ih =>
    simp only [List.foldl_cons, List.cons_append]
    refine (ih (insertBy lt x acc)).trans ?_
    refine (List.Perm.append_left xs (perm_insertBy lt x acc)).trans ?_
    exact List.perm_middle

/-- sortBy is a permutation of its input. -/
theorem perm_sortBy {A : Type} (lt : A → A → Bool) (l : List A) :
    List.Perm (sortBy lt l) l := by
  simpa using perm_sortBy_aux lt l []

theorem mem_sortBy {A : Type} (lt : A → A → Bool) (l : List A) (a : A) :
    a ∈ sortBy lt l ↔ a ∈ l :=
  (perm_sortBy lt l).mem_iff

theorem mem_insertBy {A : Type} (lt : A → A → Bool) (x : A) (l : List A) (a : A) :
    a ∈ insertBy lt x l ↔ a = x ∨ a ∈ l := by
  rw [(perm_insertBy lt x l).mem_iff]
  simp

theorem pairwise_insertBy {A : Type} (lt : A → A → Bool) (R : A → A → Prop)
    (h1 : ∀ x y, lt x y = true → R x y) (h2 : ∀ x y, lt x y = false → R y x)
    (htr : ∀ a b c, R a b → R b c → R a c)
    (x : A) (l : List A) (hl : l.Pairwise R) :
    (insertBy lt x l).Pairwise R := by
  induction l with
  | nil => simp [insertBy]
  | cons y ys ih =>
    rcases List.pairwise_cons.mp hl with ⟨hy, hys⟩
    by_cases h : lt x y = true
    · rw [insertBy, if_pos h]
      refine List.pairwise_cons.mpr ⟨?_, hl⟩
      intro z hz
      rcases List.mem_cons.mp hz with rfl | hz
      · exact h1 _ _ h
      · exact htr _ _ _ (h1 _ _ h) (hy z hz)
    · rw [insertBy, if_neg h]
      refine List.pairwise_cons.mpr ⟨?_, ih hys⟩
      intro z hz
      rcases (mem_insertBy lt x ys z).mp hz with rfl | hz
      · exact h2 _ _ (by simpa using h)
      · exact hy z hz

theorem pairwise_sortBy {A : Type} (lt : A → A → Bool) (R : A → A → Prop)
    (h1 : ∀ x y, lt x y = true → R x y) (h2 : ∀ x y, lt x y = false → R y x)
    (htr : ∀ a b c, R a b → R b c → R a c) (l : List A) :
    (sortBy lt l).Pairwise R := by
  suffices h : ∀ acc, acc.Pairwise R →
      (l.foldl (fun acc x => insertBy lt x acc) acc).Pairwise R by
    exact h [] (by simp)
  induction l with
  | nil => intro acc hacc; simpa using hacc
  | cons x xs ih =>
    intro acc hacc
    exact ih (insertBy lt x acc) (pairwise_insertBy lt R h1 h2 htr x acc hacc)

/-! ## Map-update lemmas -/

theorem updateById_cons {R : Type} (p : RankedPhoto R) (ps : List (RankedPhoto R))
    (i : String) (f : RankedPhoto R → RankedPhoto R) :
    updateById (p :: ps) i f =
      (if p.id = i then f p else p) :: updateById ps i f := rfl

theorem findById_updateById {R : Type} (s : List (RankedPhoto R)) (i j : String)
    (f : RankedPhoto R → RankedPhoto R) (hf : ∀ p, (f p).id = p.id) :
    findById (updateById s i f) j =
      if i = j then (findById s j).map f else findById s j := by
  induction s with
  | nil => simp [findById, updateById]
  | cons p ps ih =>
    rw [updateById_cons]
    have hqid : (if p.id = i then f p else p).id = p.id := by
      by_cases hpi : p.id = i <;> simp [hpi, hf p]
    unfold findById at ih ⊢
    by_cases hpj : p.id = j
    · rw [List.find?_cons_of_pos _ (by rw [hqid]; simp [hpj]),
        List.find?_cons_of_pos _ (by simp [hpj])]
      by_cases hij : i = j
      · have hpi : p.id = i := by rw [hpj, hij]
        rw [if_pos hij, if_pos hpi]
        rfl
      · have hpi : ¬ p.id = i := fun h => hij (by rw [← h, hpj])
        rw [if_neg hij, if_neg hpi]
    · rw [List.find?_cons_of_neg _ (by rw [hqid]; simp [hpj]),
        List.find?_cons_of_neg _ (by simp [hpj])]
      exact ih

theorem ids_updateById {R : Type} (s : List (RankedPhoto R)) (i : String)
    (f : RankedPhoto R → RankedPhoto R) (hf : ∀ p, (f p).id = p.id) :
    (updateById s i f).map (fun p => p.id) = s.map (fun p => p.id) := by
  unfold updateById
  rw [List.map_map]
  refine List.map_congr_left ?_
  intro q _
  by_cases hqi : q.id = i <;> simp [hqi, hf q]

theorem mem_updateById {R : Type} {s : List (RankedPhoto R)} {i : String}
    {f : RankedPhoto R → RankedPhoto R} {q : RankedPhoto R}
    (h : q ∈ updateById s i f) : ∃ p ∈ s, q = f p ∨ q = p := by
  unfold updateById at h
  rcases List.mem_map.mp h with ⟨p, hp, hq⟩
  refine ⟨p, hp, ?_⟩
  by_cases hpi : p.id = i
  · rw [if_pos hpi] at hq; exact Or.inl hq.symm
  · rw [if_neg hpi] at hq; exact Or.inr hq.symm

theorem forall_updateById {R : Type} {P : RankedPhoto R → Prop}
    {s : List (RankedPhoto R)} {i : String} {f : RankedPhoto R → RankedPhoto R}
    (hs : ∀ p ∈ s, P p) (hf : ∀ p, P p → P (f p)) :
    ∀ q ∈ updateById s i f, P q := by
  intro q hq
  rcases mem_updateById hq with ⟨p, hp, hq2 | hq2⟩
  · rw [hq2]; exact hf p (hs p hp)
  · rw [hq2]; exact hs p hp

theorem foldl_preserves {St E : Type} (f : St → E → St) (P : St → Prop)
    (l : List E) (s : St) (h0 : P s) (hstep : ∀ t e, P t → P (f t e)) :
    P (l.foldl f s) := by
  induction l generalizing s with
  | nil => simpa using h0
  | cons e es ih => exact ih (f s e) (hstep s e h0)

/-! ## Per-event characterisation of the replayer -/

/-- An event one of whose participants is missing from the map is skipped:
the state is returned unchanged. -/
theorem applyMatch_skip (s : List (RankedPhoto ℝ)) (ev : MatchResult)
    (h : findById s ev.winnerId = none ∨ findById s ev.loserId = none) :
    applyMatch s ev = s := by
  unfold applyMatch
  rcases hw : findById s ev.winnerId with _ | w
  · rfl
  · rcases hl : findById s ev.loserId with _ | l
    · rfl
    · rcases h with h | h
      · rw [hw] at h; cases h
      · rw [hl] at h; cases h

theorem applyMatch_eq_core (s : List (RankedPhoto ℝ)) (ev : MatchResult)
    (w l : RankedPhoto ℝ)
    (hw : findById s ev.winnerId = some w) (hl : findById s ev.loserId = some l) :
    applyMatch s ev = applyMatchCore s ev w l := by
  unfold applyMatch
  rw [hw, hl]

theorem findById_applyMatchCore_winner (s : List (RankedPhoto ℝ)) (ev : MatchResult)
    (w l : RankedPhoto ℝ) (hne : ev.winnerId ≠ ev.loserId)
    (hw : findById s ev.winnerId = some w) :
    findById (applyMatchCore s ev w l) ev.winnerId = some (postWinner w l) := by
  have hne2 : ev.loserId ≠ ev.winnerId := fun h => hne h.symm
  unfold applyMatchCore
  dsimp only
  by_cases hup : getExpectedScore w.rating l.rating < 0.25
  · rw [if_pos hup]
    rw [findById_updateById, if_neg hne2, findById_updateById, if_pos rfl,
      findById_updateById, if_neg hne2, findById_updateById, if_pos rfl,
      findById_updateById, if_neg hne2, findById_updateById, if_pos rfl, hw]
    · unfold postWinner
      rw [if_pos hup]
      rfl
    all_goals exact fun p => rfl
  · rw [if_neg hup]
    rw [findById_updateById, if_neg hne2, findById_updateById, if_pos rfl,
      findById_updateById, if_neg hne2, findById_updateById, if_pos rfl,
      findById_updateById, if_neg hne2, findById_updateById, if_pos rfl, hw]
    · unfold postWinner
      rw [if_neg hup]
      rfl
    all_goals exact fun p => rfl

theorem findById_applyMatchCore_loser (s : List (RankedPhoto ℝ)) (ev : MatchResult)
    (w l : RankedPhoto ℝ) (hne : ev.winnerId ≠ ev.loserId)
    (hl : findById s ev.loserId = some l) :
    findById (applyMatchCore s ev w l) ev.loserId = some (postLoser w l) := by
  unfold applyMatchCore
  dsimp only
  by_cases hup : getExpectedScore w.rating l.rating < 0.25
  · rw [if_pos hup]
    rw [findById_updateById, if_pos rfl, findById_updateById, if_neg hne,
      findById_updateById, if_pos rfl, findById_updateById, if_neg hne,
      findById_updateById, if_pos rfl, findById_updateById, if_neg hne, hl]
    · unfold postLoser
      rw [if_pos hup]
      rfl
    all_goals exact fun p => rfl
  · rw [if_neg hup]
    rw [findById_updateById, if_pos rfl, findById_updateById, if_neg hne,
      findById_updateById, if_pos rfl, findById_updateById, if_neg hne,
      findById_updateById, if_pos rfl, findById_updateById, if_neg hne, hl]
    · unfold postLoser
      rw [if_neg hup]
      rfl
    all_goals exact fun p => rfl

theorem findById_applyMatchCore_other (s : List (RankedPhoto ℝ)) (ev : MatchResult)
    (w l : RankedPhoto ℝ) (j : String) (hjW : ev.winnerId ≠ j) (hjL : ev.loserId ≠ j) :
    findById (applyMatchCore s ev w l) j = findById s j := by
  unfold applyMatchCore
  dsimp only
  by_cases hup : getExpectedScore w.rating l.rating < 0.25
  · rw [if_pos hup]
    rw [findById_updateById, if_neg hjL, findById_updateById, if_neg hjW,
      findById_updateById, if_neg hjL, findById_updateById, if_neg hjW,
      findById_updateById, if_neg hjL, findById_updateById, if_neg hjW]
    all_goals exact fun p => rfl
  · rw [if_neg hup]
    rw [findById_updateById, if_neg hjL, findById_updateById, if_neg hjW,
      findById_updateById, if_neg hjL, findById_updateById, if_neg hjW,
      findById_updateById, if_neg hjL, findById_updateById, if_neg hjW]
    all_goals exact fun p => rfl

/-! ## Identity stability and lookup through the final sort -/

theorem ids_applyMatchCore (s : List (RankedPhoto ℝ)) (ev : MatchResult)
    (w l : RankedPhoto ℝ) :
    (applyMatchCore s ev w l).map (fun p => p.id) = s.map (fun p => p.id) := by
  unfold applyMatchCore
  dsimp only
  by_cases hup : getExpectedScore w.rating l.rating < 0.25
  · rw [if_pos hup]
    rw [ids_updateById, ids_updateById, ids_updateById, ids_updateById,
      ids_updateById, ids_updateById]
    all_goals exact fun p => rfl
  · rw [if_neg hup]
    rw [ids_updateById, ids_updateById, ids_updateById, ids_updateById,
      ids_updateById, ids_updateById]
    all_goals exact fun p => rfl

theorem ids_applyMatch (s : List (RankedPhoto ℝ)) (ev : MatchResult) :
    (applyMatch s ev).map (fun p => p.id) = s.map (fun p => p.id) := by
  unfold applyMatch
  rcases hw : findById s ev.winnerId with _ | w
  · rfl
  · rcases hl : findById s ev.loserId with _ | l
    · rfl
    · exact ids_applyMatchCore s ev w l

/-- In a state with pairwise distinct ids, lookup is determined by
membership: the element with the sought id is found no matter where it
sits. -/
theorem findById_of_mem_nodup {R : Type} {s : List (RankedPhoto R)} {w : RankedPhoto R}
    {j : String} (hnd : (s.map (fun p => p.id)).Nodup) (hm : w ∈ s) (hid : w.id = j) :
    findById s j = some w := by
  induction s with
  | nil => cases hm
  | cons p ps ih =>
    rcases List.mem_cons.mp hm with rfl | hm2
    · exact List.find?_cons_of_pos _ (by simp [hid])
    · have hpj : ¬ (p.id = j) := by
        intro hpj
        have hw2 : w.id ∈ ps.map (fun q => q.id) := List.mem_map_of_mem _ hm2
        rw [List.map_cons, List.nodup_cons] at hnd
        rw [hid] at hw2
        rw [hpj] at hnd
        exact hnd.1 hw2
      rw [findById, List.find?_cons_of_neg _ (by simp [hpj])]
      exact ih (by rw [List.map_cons, List.nodup_cons] at hnd; exact hnd.2) hm2

/-- Lookup commutes with any sortBy pass on a state with distinct ids. -/
theorem findById_sortBy {R : Type} (lt : RankedPhoto R → RankedPhoto R → Bool)
    (s : List (RankedPhoto R)) (j : String)
    (hnd : (s.map (fun p => p.id)).Nodup) :
    findById (sortBy lt s) j = findById s j := by
  have hnd2 : ((sortBy lt s).map (fun p => p.id)).Nodup :=
    (((perm_sortBy lt s).map (fun p => p.id)).nodup_iff).mpr hnd
  rcases h : findById s j with _ | w
  · refine List.find?_eq_none.mpr ?_
    intro p hp
    have := List.find?_eq_none.mp h p ((mem_sortBy lt s p).mp hp)
    simpa using this
  · have hm : w ∈ s := List.mem_of_find?_eq_some h
    have hid : w.id = j := by simpa using List.find?_some h
    exact findById_of_mem_nodup hnd2 ((mem_sortBy lt s w).mpr hm) hid

/-! ## State invariants preserved by the fold -/

theorem insertPhoto_preserves {P : RankedPhoto ℝ → Prop}
    (hinit : ∀ ph : Photo, P (initRanked ph))
    {s : List (RankedPhoto ℝ)} {ph : Photo} (hs : ∀ p ∈ s, P p) :
    ∀ q ∈ insertPhoto s ph, P q := by
  intro q hq
  unfold insertPhoto at hq
  by_cases hmem : s.any (fun q => q.id == ph.id)
  · rw [if_pos hmem] at hq
    rcases List.mem_map.mp hq with ⟨p, hp, hpq⟩
    by_cases hpi : p.id = ph.id
    · rw [if_pos hpi] at hpq; rw [← hpq]; exact hinit ph
    · rw [if_neg hpi] at hpq; rw [← hpq]; exact hs p hp
  · rw [if_neg hmem] at hq
    rcases List.mem_append.mp hq with hq2 | hq2
    · exact hs q hq2
    · rw [List.mem_singleton.mp hq2]; exact hinit ph

theorem initState_preserves {P : RankedPhoto ℝ → Prop}
    (hinit : ∀ ph : Photo, P (initRanked ph)) (photos : List Photo) :
    ∀ q ∈ initState photos, P q := by
  unfold initState
  refine foldl_preserves insertPhoto (fun t => ∀ p ∈ t, P p) photos [] ?_ ?_
  · intro p hp; cases hp
  · intro t ph ht
    exact insertPhoto_preserves hinit ht

/-- A per-item predicate not looking at rating is preserved by one event of
the fold, provided it is stable under the two uncertainty updates and the
two counter updates. -/
theorem applyMatch_preserves {P : RankedPhoto ℝ → Prop}
    (hrat : ∀ p : RankedPhoto ℝ, ∀ v : ℝ, P p → P { p with rating := v })
    (hmin : ∀ p : RankedPhoto ℝ, P p →
      P { p with uncertainty := min INITIAL_UNCERTAINTY (p.uncertainty + VOLATILITY_INFLATION) })
    (hmax : ∀ p : RankedPhoto ℝ, P p →
      P { p with uncertainty := max MIN_UNCERTAINTY (p.uncertainty * UNCERTAINTY_DECAY) })
    (hwin : ∀ p : RankedPhoto ℝ, P p →
      P { p with wins := p.wins + 1, matchCount := p.matchCount + 1 })
    (hlos : ∀ p : RankedPhoto ℝ, P p →
      P { p with losses := p.losses + 1, matchCount := p.matchCount + 1 })
    (s : List (RankedPhoto ℝ)) (ev : MatchResult) (hs : ∀ p ∈ s, P p) :
    ∀ q ∈ applyMatch s ev, P q := by
  unfold applyMatch
  rcases hw : findById s ev.winnerId with _ | w
  · exact hs
  · rcases hl : findById s ev.loserId with _ | l
    · exact hs
    · unfold applyMatchCore
      dsimp only
      by_cases hup : getExpectedScore w.rating l.rating < 0.25
      · rw [if_pos hup]
        exact forall_updateById (forall_updateById (forall_updateById
          (forall_updateById (forall_updateById (forall_updateById hs
            (fun p hp => hrat p _ hp)) (fun p hp => hrat p _ hp))
            (fun p hp => hmin p hp)) (fun p hp => hmin p hp))
            (fun p hp => hwin p hp)) (fun p hp => hlos p hp)
      · rw [if_neg hup]
        exact forall_updateById (forall_updateById (forall_updateById
          (forall_updateById (forall_updateById (forall_updateById hs
            (fun p hp => hrat p _ hp)) (fun p hp => hrat p _ hp))
            (fun p hp => hmax p hp)) (fun p hp => hmax p hp))
            (fun p hp => hwin p hp)) (fun p hp => hlos p hp)

/-! ## Claims about the replayer: order invariance, skipping, invariants -/

/-- Claim C2: for every item list, two event logs that sort to the same
timestamp-ascending sequence replay to the same snapshot; in particular a
permutation of the events that preserves relative timestamp order leaves
calculateRankings unchanged. -/
theorem snapshot_timestamp_order_invariance (photos : List Photo)
    (e1 e2 : List MatchResult) (h : sortEventsByTs e1 = sortEventsByTs e2) :
    calculateRankings photos e1 = calculateRankings photos e2 := by
  unfold calculateRankings
  rw [h]

theorem snapshot_timestamp_order_invariance_witness :
    sortEventsByTs [evAB, evBA2] = sortEventsByTs [evBA2, evAB] ∧
    calculateRankings [phA, phB] [evAB, evBA2] =
      calculateRankings [phA, phB] [evBA2, evAB] := by
  have h : sortEventsByTs [evAB, evBA2] = sortEventsByTs [evBA2, evAB] := by rfl
  exact ⟨h, snapshot_timestamp_order_invariance [phA, phB] _ _ h⟩

/-- Claim C7: an event whose winnerId or loserId is absent from the map is
skipped without mutating any item, and the fold simply continues with the
remaining events. -/
theorem unknown_participant_skipped (s : List (RankedPhoto ℝ)) (ev : MatchResult)
    (rest : List MatchResult)
    (h : findById s ev.winnerId = none ∨ findById s ev.loserId = none) :
    applyMatch s ev = s ∧
    List.foldl applyMatch s (ev :: rest) = List.foldl applyMatch s rest := by
  have hskip := applyMatch_skip s ev h
  exact ⟨hskip, by rw [List.foldl_cons, hskip]⟩

theorem unknown_participant_skipped_witness :
    findById (initState [phA]) evAB.loserId = none ∧
    (applyMatch (initState [phA]) evAB = initState [phA] ∧
      List.foldl applyMatch (initState [phA]) [evAB] =
        List.foldl applyMatch (initState [phA]) []) := by
  have hn : findById (initState [phA]) evAB.loserId = none := by rfl
  exact ⟨hn, unknown_participant_skipped (initState [phA]) evAB [] (Or.inr hn)⟩

/-- Claim C3: after replaying any event sequence from any item list, every
item has its uncertainty within the closed interval from MIN_UNCERTAINTY
(40) to INITIAL_UNCERTAINTY (350): the bounds hold at initialisation and
are preserved by the upset inflation (capped by min) and by the decay
(floored by max). -/
theorem uncertainty_bounds_invariant (photos : List Photo) (evs : List MatchResult) :
    (calculateRankings photos evs).Forall
      (fun p => MIN_UNCERTAINTY ≤ p.uncertainty ∧ p.uncertainty ≤ INITIAL_UNCERTAINTY) := by
  rw [List.forall_iff_forall_mem]
  intro q hq
  unfold calculateRankings at hq
  rw [mem_sortBy] at hq
  refine foldl_preserves applyMatch
    (fun t => ∀ p ∈ t, MIN_UNCERTAINTY ≤ p.uncertainty ∧ p.uncertainty ≤ INITIAL_UNCERTAINTY)
    (sortEventsByTs evs) (initState photos) ?_ ?_ q hq
  · refine initState_preserves (fun ph => ?_) photos
    constructor <;> norm_num [initRanked, MIN_UNCERTAINTY, INITIAL_UNCERTAINTY]
  · intro t e ht
    refine applyMatch_preserves ?_ ?_ ?_ ?_ ?_ t e ht
    · intro p v hp; exact hp
    · intro p hp
      refine ⟨le_min (by norm_num [MIN_UNCERTAINTY, INITIAL_UNCERTAINTY]) ?_, min_le_left _ _⟩
      have h1 := hp.1
      unfold MIN_UNCERTAINTY VOLATILITY_INFLATION at *
      linarith
    · intro p hp
      refine ⟨le_max_left _ _,
        max_le (by norm_num [MIN_UNCERTAINTY, INITIAL_UNCERTAINTY]) ?_⟩
      have h1 := hp.1
      have h2 := hp.2
      unfold MIN_UNCERTAINTY INITIAL_UNCERTAINTY UNCERTAINTY_DECAY at *
      nlinarith
    · intro p hp; exact hp
    · intro p hp; exact hp

/-- Claim C6: after replaying any event sequence from any item list, every
item satisfies matchCount = wins + losses: true at initialisation and
preserved because each applied event adds one win and one match to the
winner and one loss and one match to the loser. -/
theorem matches_eq_wins_add_losses (photos : List Photo) (evs : List MatchResult) :
    (calculateRankings photos evs).Forall
      (fun p => p.matchCount = p.wins + p.losses) := by
  rw [List.forall_iff_forall_mem]
  intro q hq
  unfold calculateRankings at hq
  rw [mem_sortBy] at hq
  refine foldl_preserves applyMatch
    (fun t => ∀ p ∈ t, p.matchCount = p.wins + p.losses)
    (sortEventsByTs evs) (initState photos) ?_ ?_ q hq
  · exact initState_preserves (fun ph => by rfl) photos
  · intro t e ht
    refine applyMatch_preserves ?_ ?_ ?_ ?_ ?_ t e ht
    · intro p v hp; exact hp
    · intro p hp; exact hp
    · intro p hp; exact hp
    · intro p hp
      show p.matchCount + 1 = p.wins + 1 + p.losses
      omega
    · intro p hp
      show p.matchCount + 1 = p.wins + (p.losses + 1)
      omega

/-! ## Expected score facts -/

theorem getExpectedScore_self (x : ℝ) : getExpectedScore x x = 1 / 2 := by
  unfold getExpectedScore
  rw [sub_self, zero_div, Real.rpow_zero]
  norm_num

theorem getExpectedScore_lt_one (a b : ℝ) : getExpectedScore a b < 1 := by
  unfold getExpectedScore
  have h10 : (0 : ℝ) < (10 : ℝ) ^ ((b - a) / 400) :=
    Real.rpow_pos_of_pos (by norm_num) _
  rw [div_lt_one (by linarith)]
  linarith

theorem getExpectedScore_pos (a b : ℝ) : 0 < getExpectedScore a b := by
  unfold getExpectedScore
  have h10 : (0 : ℝ) < (10 : ℝ) ^ ((b - a) / 400) :=
    Real.rpow_pos_of_pos (by norm_num) _
  positivity

/-! ## Claim C5: upset classification and the uncertainty update -/

/-- Claim C5: for an applied event between two distinct participants, the
match is an upset exactly when the pre-match expected score of the winner is
below 0.25; on an upset both uncertainties become
min INITIAL_UNCERTAINTY (u + VOLATILITY_INFLATION), otherwise both become
max MIN_UNCERTAINTY (u * UNCERTAINTY_DECAY). -/
theorem upset_uncertainty_update (s : List (RankedPhoto ℝ)) (ev : MatchResult)
    (w l : RankedPhoto ℝ) (hne : ev.winnerId ≠ ev.loserId)
    (hw : findById s ev.winnerId = some w) (hl : findById s ev.loserId = some l) :
    (getExpectedScore w.rating l.rating < 0.25 →
      (findById (applyMatch s ev) ev.winnerId).map (fun p => p.uncertainty) =
        some (min INITIAL_UNCERTAINTY (w.uncertainty + VOLATILITY_INFLATION)) ∧
      (findById (applyMatch s ev) ev.loserId).map (fun p => p.uncertainty) =
        some (min INITIAL_UNCERTAINTY (l.uncertainty + VOLATILITY_INFLATION))) ∧
    (¬ getExpectedScore w.rating l.rating < 0.25 →
      (findById (applyMatch s ev) ev.winnerId).map (fun p => p.uncertainty) =
        some (max MIN_UNCERTAINTY (w.uncertainty * UNCERTAINTY_DECAY)) ∧
      (findById (applyMatch s ev) ev.loserId).map (fun p => p.uncertainty) =
        some (max MIN_UNCERTAINTY (l.uncertainty * UNCERTAINTY_DECAY))) := by
  rw [applyMatch_eq_core s ev w l hw hl]
  rw [findById_applyMatchCore_winner s ev w l hne hw,
    findById_applyMatchCore_loser s ev w l hne hl]
  unfold postWinner postLoser
  constructor
  · intro hup
    rw [if_pos hup, if_pos hup]
    exact ⟨rfl, rfl⟩
  · intro hup
    rw [if_neg hup, if_neg hup]
    exact ⟨rfl, rfl⟩

theorem upset_uncertainty_update_witness :
    evAB.winnerId ≠ evAB.loserId ∧
    findById (initState [phA, phB]) evAB.winnerId = some (initRanked phA) ∧
    findById (initState [phA, phB]) evAB.loserId = some (initRanked phB) ∧
    ((getExpectedScore (initRanked phA).rating (initRanked phB).rating < 0.25 →
      (findById (applyMatch (initState [phA, phB]) evAB) evAB.winnerId).map
          (fun p => p.uncertainty) =
        some (min INITIAL_UNCERTAINTY ((initRanked phA).uncertainty + VOLATILITY_INFLATION)) ∧
      (findById (applyMatch (initState [phA, phB]) evAB) evAB.loserId).map
          (fun p => p.uncertainty) =
        some (min INITIAL_UNCERTAINTY ((initRanked phB).uncertainty + VOLATILITY_INFLATION))) ∧
    (¬ getExpectedScore (initRanked phA).rating (initRanked phB).rating < 0.25 →
      (findById (applyMatch (initState [phA, phB]) evAB) evAB.winnerId).map
          (fun p => p.uncertainty) =
        some (max MIN_UNCERTAINTY ((initRanked phA).uncertainty * UNCERTAINTY_DECAY)) ∧
      (findById (applyMatch (initState [phA, phB]) evAB) evAB.loserId).map
          (fun p => p.uncertainty) =
        some (max MIN_UNCERTAINTY ((initRanked phB).uncertainty * UNCERTAINTY_DECAY)))) := by
  refine ⟨by decide, by rfl, by rfl, ?_⟩
  exact upset_uncertainty_update (initState [phA, phB]) evAB
    (initRanked phA) (initRanked phB) (by decide) (by rfl) (by rfl)

/-! ## Claim C10: rating monotonicity per applied event -/

/-- Counterexample to claim C10 as stated: the event (A beats A) is applied
(both participant ids are present), yet the rating of the winner strictly
decreases from 1000 to 965, because the loser-side write overwrites the
winner-side write on the aliased object. -/
theorem self_match_winner_rating_decreases_cex :
    (findById (initState [phA]) evAA.winnerId).map (fun p => p.rating) =
      some 1000 ∧
    (findById (applyMatch (initState [phA]) evAA) evAA.winnerId).map
      (fun p => p.rating) = some 965 ∧
    ¬ ((1000 : ℝ) < 965) := by
  refine ⟨?_, ?_, by norm_num⟩
  · show some ((initRanked phA).rating) = some 1000
    rw [initRanked]
    norm_num [INITIAL_RATING]
  · rw [applyMatch_eq_core (initState [phA]) evAA (initRanked phA) (initRanked phA)
      (by rfl) (by rfl)]
    unfold applyMatchCore
    dsimp only
    rw [getExpectedScore_self]
    rw [if_neg (by norm_num : ¬ ((1 : ℝ) / 2 < 0.25))]
    show some _ = some (965 : ℝ)
    norm_num [initState, insertPhoto, initRanked, updateById, findById, phA, evAA,
      INITIAL_RATING, INITIAL_UNCERTAINTY, MIN_UNCERTAINTY, UNCERTAINTY_DECAY]

/-- Claim C10 (amended): for every applied event whose winner and loser ids
are distinct and whose participants have strictly positive uncertainty, the
rating of the winner strictly increases and the rating of the loser
strictly decreases, because each K factor is strictly positive and the expected
score is strictly below 1. -/
theorem winner_gains_loser_drops (s : List (RankedPhoto ℝ)) (ev : MatchResult)
    (w l : RankedPhoto ℝ) (hne : ev.winnerId ≠ ev.loserId)
    (hw : findById s ev.winnerId = some w) (hl : findById s ev.loserId = some l)
    (hwu : 0 < w.uncertainty) (hlu : 0 < l.uncertainty) :
    ∃ w2 l2, findById (applyMatch s ev) ev.winnerId = some w2 ∧
      findById (applyMatch s ev) ev.loserId = some l2 ∧
      w.rating < w2.rating ∧ l2.rating < l.rating := by
  rw [applyMatch_eq_core s ev w l hw hl]
  refine ⟨postWinner w l, postLoser w l,
    findById_applyMatchCore_winner s ev w l hne hw,
    findById_applyMatchCore_loser s ev w l hne hl, ?_, ?_⟩
  · show w.rating <
      w.rating + w.uncertainty / 400 * 80 * (1 - getExpectedScore w.rating l.rating)
    have hE := getExpectedScore_lt_one w.rating l.rating
    have hK : 0 < w.uncertainty / 400 * 80 := by positivity
    have := mul_pos hK (by linarith : (0 : ℝ) < 1 - getExpectedScore w.rating l.rating)
    linarith
  · show l.rating + l.uncertainty / 400 * 80 *
      (0 - (1 - getExpectedScore w.rating l.rating)) < l.rating
    have hE := getExpectedScore_lt_one w.rating l.rating
    have hK : 0 < l.uncertainty / 400 * 80 := by positivity
    have := mul_pos hK (by linarith : (0 : ℝ) < 1 - getExpectedScore w.rating l.rating)
    nlinarith

theorem winner_gains_loser_drops_witness :
    evAB.winnerId ≠ evAB.loserId ∧
    findById (initState [phA, phB]) evAB.winnerId = some (initRanked phA) ∧
    findById (initState [phA, phB]) evAB.loserId = some (initRanked phB) ∧
    0 < (initRanked phA).uncertainty ∧ 0 < (initRanked phB).uncertainty ∧
    (∃ w2 l2,
      findById (applyMatch (initState [phA, phB]) evAB) evAB.winnerId = some w2 ∧
      findById (applyMatch (initState [phA, phB]) evAB) evAB.loserId = some l2 ∧
      (initRanked phA).rating < w2.rating ∧ l2.rating < (initRanked phB).rating) := by
  have hu : (0 : ℝ) < (initRanked phA).uncertainty := by
    show (0 : ℝ) < INITIAL_UNCERTAINTY
    norm_num [INITIAL_UNCERTAINTY]
  have hu2 : (0 : ℝ) < (initRanked phB).uncertainty := by
    show (0 : ℝ) < INITIAL_UNCERTAINTY
    norm_num [INITIAL_UNCERTAINTY]
  refine ⟨by decide, by rfl, by rfl, hu, hu2, ?_⟩
  exact winner_gains_loser_drops (initState [phA, phB]) evAB
    (initRanked phA) (initRanked phB) (by decide) (by rfl) (by rfl) hu hu2

/-! ## Claim C1: output order of the replayer -/

/-- Counterexample to claim C1 as stated: after the single event (B beats
A), calculateRankings returns the items as B before A (sorted by rating
descending), not in the input-item order A before B. -/
theorem snapshot_not_input_order_cex :
    (calculateRankings [phA, phB] [evBA2]).map (fun p => p.id) ≠
      [phA, phB].map (fun p => p.id) := by
  have hre : getExpectedScore (initRanked phB).rating (initRanked phA).rating = 1 / 2 :=
    getExpectedScore_self ((initRanked phB).rating)
  unfold calculateRankings
  rw [show sortEventsByTs [evBA2] = [evBA2] from rfl, List.foldl_cons, List.foldl_nil,
    applyMatch_eq_core _ _ (initRanked phB) (initRanked phA) (by rfl) (by rfl)]
  unfold applyMatchCore
  dsimp only
  rw [hre, if_neg (by norm_num : ¬ ((1 : ℝ) / 2 < 0.25))]
  have hAB : ¬ (("A" : String) = "B") := by decide
  have hBA : ¬ (("B" : String) = "A") := by decide
  norm_num [initState, insertPhoto, initRanked, updateById, findById, phA, phB, evBA2,
    sortBy, insertBy, ratingDescLt, decide_eq_true_eq, hAB, hBA,
    INITIAL_RATING, INITIAL_UNCERTAINTY, MIN_UNCERTAINTY, UNCERTAINTY_DECAY]

/-- Claim C1 (amended): calculateRankings itself sorts the snapshot by
rating descending before returning it (the leaderboard order is produced by
the replayer, not left to the caller). -/
theorem snapshot_sorted_by_rating_desc (photos : List Photo) (evs : List MatchResult) :
    (calculateRankings photos evs).Pairwise (fun a b => b.rating ≤ a.rating) := by
  unfold calculateRankings
  refine pairwise_sortBy ratingDescLt _ ?_ ?_ ?_ _
  · intro x y h
    unfold ratingDescLt at h
    have := of_decide_eq_true h
    linarith
  · intro x y h
    unfold ratingDescLt at h
    have := of_decide_eq_false h
    exact le_of_not_lt this
  · intro a b c h1 h2
    exact le_trans h2 h1

/-! ## Claim C9: the concrete single-event scenario -/

/-- Claim C9: with items A, B, C at defaults and the single event (A beats
B at t=1), the snapshot has A.rating above 1000 and B.rating below 1000,
A with one win and one match, B with one loss and one match, and C exactly
at its initial state. -/
theorem single_event_scenario :
    ∃ a b, findById (calculateRankings [phA, phB, phC] [evAB]) "A" = some a ∧
      findById (calculateRankings [phA, phB, phC] [evAB]) "B" = some b ∧
      1000 < a.rating ∧ b.rating < 1000 ∧
      a.wins = 1 ∧ a.matchCount = 1 ∧ a.losses = 0 ∧
      b.losses = 1 ∧ b.matchCount = 1 ∧ b.wins = 0 ∧
      findById (calculateRankings [phA, phB, phC] [evAB]) "C" = some (initRanked phC) := by
  have hE : getExpectedScore (initRanked phA).rating (initRanked phB).rating = 1 / 2 :=
    getExpectedScore_self ((initRanked phA).rating)
  have hcore : applyMatch (initState [phA, phB, phC]) evAB
      = applyMatchCore (initState [phA, phB, phC]) evAB (initRanked phA) (initRanked phB) :=
    applyMatch_eq_core _ _ _ _ (by rfl) (by rfl)
  have hfold : List.foldl applyMatch (initState [phA, phB, phC]) (sortEventsByTs [evAB])
      = applyMatchCore (initState [phA, phB, phC]) evAB (initRanked phA) (initRanked phB) := by
    rw [show sortEventsByTs [evAB] = [evAB] from rfl, List.foldl_cons, List.foldl_nil, hcore]
  have hnd : ((applyMatchCore (initState [phA, phB, phC]) evAB (initRanked phA)
      (initRanked phB)).map (fun p => p.id)).Nodup := by
    rw [ids_applyMatchCore]
    rw [show (initState [phA, phB, phC]).map (fun p => p.id) = ["A", "B", "C"] from rfl]
    decide
  unfold calculateRankings
  rw [hfold]
  refine ⟨postWinner (initRanked phA) (initRanked phB),
    postLoser (initRanked phA) (initRanked phB), ?_, ?_, ?_, ?_, ?_, ?_, ?_, ?_, ?_, ?_, ?_⟩
  · rw [findById_sortBy _ _ _ hnd]
    exact findById_applyMatchCore_winner _ _ _ _ (by decide) (by rfl)
  · rw [findById_sortBy _ _ _ hnd]
    exact findById_applyMatchCore_loser _ _ _ _ (by decide) (by rfl)
  · show (1000 : ℝ) < (postWinner (initRanked phA) (initRanked phB)).rating
    unfold postWinner
    dsimp only
    rw [hE]
    norm_num [initRanked, INITIAL_RATING, INITIAL_UNCERTAINTY]
  · show (postLoser (initRanked phA) (initRanked phB)).rating < 1000
    unfold postLoser
    dsimp only
    rw [hE]
    norm_num [initRanked, INITIAL_RATING, INITIAL_UNCERTAINTY]
  · rfl
  · rfl
  · rfl
  · rfl
  · rfl
  · rfl
  · rw [findById_sortBy _ _ _ hnd]
    rw [findById_applyMatchCore_other _ _ _ _ ("C") (by decide) (by decide)]
    rfl

/-! ## Sampler lemmas -/

theorem getAtInt_some {A : Type} {l : List A} {i : Int} {a : A}
    (h : getAtInt l i = some a) : l[i.toNat]? = some a ∧ 0 ≤ i := by
  unfold getAtInt at h
  by_cases h0 : 0 ≤ i
  · rw [if_pos h0] at h; exact ⟨h, h0⟩
  · rw [if_neg h0] at h; cases h

/-- In a pool whose ids are pairwise distinct, elements read at distinct
indices carry distinct ids. -/
theorem nodup_ids_getElem_ne (photos : List (RankedPhoto ℚ))
    (hnd : (photos.map (fun p => p.id)).Nodup)
    (m n : Nat) (a b : RankedPhoto ℚ)
    (hm : photos[m]? = some a) (hn : photos[n]? = some b) (hmn : m ≠ n) :
    a.id ≠ b.id := by
  rcases List.getElem?_eq_some_iff.mp hm with ⟨hm2, hma⟩
  rcases List.getElem?_eq_some_iff.mp hn with ⟨hn2, hnb⟩
  intro hab
  have hmlen : m < (photos.map (fun p => p.id)).length := by simpa using hm2
  have hnlen : n < (photos.map (fun p => p.id)).length := by simpa using hn2
  have hmapm : (photos.map (fun p => p.id))[m] = a.id := by
    rw [List.getElem_map]; rw [hma]
  have hmapn : (photos.map (fun p => p.id))[n] = b.id := by
    rw [List.getElem_map]; rw [hnb]
  have : (photos.map (fun p => p.id))[m] = (photos.map (fun p => p.id))[n] := by
    rw [hmapm, hmapn, hab]
  exact hmn (hnd.getElem_inj_iff.mp this)

theorem pickFrom_mem {A : Type} {l : List A} {rs : List ℚ} {a : A} {rest : List ℚ}
    (h : pickFrom l rs = some (a, rest)) : a ∈ l := by
  unfold pickFrom at h
  rcases hpi : pickIdx l.length rs with _ | ir
  · rw [hpi] at h; cases h
  · rcases ir with ⟨i, rest2⟩
    rw [hpi] at h
    dsimp only at h
    rcases hg : getAtInt l i with _ | x
    · rw [hg] at h; dsimp only at h; cases h
    · rw [hg] at h
      dsimp only at h
      have hax : a = x := by
        injection h with h1
        injection h1 with h2 h3
        exact h2.symm
      rw [hax]
      exact List.getElem?_mem (getAtInt_some hg).1

theorem drawDistinctIdx_ne {n : Nat} {a : Int} {rs : List ℚ} {b : Int} {rest : List ℚ}
    (h : drawDistinctIdx n a rs = some (b, rest)) : b ≠ a := by
  induction rs with
  | nil => cases h
  | cons r rtl ih =>
    unfold drawDistinctIdx at h
    by_cases hr : floorIdx r n = a
    · rw [if_pos hr] at h; exact ih h
    · rw [if_neg hr] at h
      have hb : b = floorIdx r n := by
        injection h with h1
        injection h1 with h2 h3
        exact h2.symm
      rw [hb]; exact hr

theorem bestMatchScan_ne (a : RankedPhoto ℚ) (l : List (RankedPhoto ℚ))
    (acc : Option (RankedPhoto ℚ × ℚ)) (b : RankedPhoto ℚ) (m : ℚ)
    (hacc : ∀ p q, acc = some (p, q) → ¬ p.id = a.id)
    (h : bestMatchScan a l acc = some (b, m)) : ¬ b.id = a.id := by
  induction l generalizing acc with
  | nil =>
    unfold bestMatchScan at h
    exact hacc b m h
  | cons p rest ih =>
    unfold bestMatchScan at h
    by_cases hp : p.id = a.id
    · rw [if_pos hp] at h
      exact ih acc hacc h
    · rw [if_neg hp] at h
      rcases acc with _ | pr
      · dsimp only at h
        refine ih _ ?_ h
        intro p2 q2 hpq
        injection hpq with h1
        injection h1 with h2 h3
        rw [← h2]; exact hp
      · rcases pr with ⟨c, mc⟩
        dsimp only at h
        by_cases hlt : |p.rating - a.rating| < mc
        · rw [if_pos hlt] at h
          refine ih _ ?_ h
          intro p2 q2 hpq
          injection hpq with h1
          injection h1 with h2 h3
          rw [← h2]; exact hp
        · rw [if_neg hlt] at h
          refine ih _ ?_ h
          intro p2 q2 hpq
          exact hacc p2 q2 (by rw [hpq])

theorem sampleAttempt_distinct (photos : List (RankedPhoto ℚ)) (rs : List ℚ)
    (a b : RankedPhoto ℚ) (ctx : BattleContext) (rs1 : List ℚ)
    (hnd : (photos.map (fun p => p.id)).Nodup)
    (h : sampleAttempt photos rs = some ((a, b, ctx), rs1)) : a.id ≠ b.id := by
  unfold sampleAttempt at h
  rcases hd : drawQ rs with _ | rp
  · rw [hd] at h; cases h
  · rcases rp with ⟨r, rs0⟩
    rw [hd] at h
    dsimp only at h
    by_cases hplace : 0 < (photos.filter (fun p => p.matchCount == 0)).length ∧ (0.1 : ℚ) < r
    · rw [if_pos hplace] at h
      rcases hpa : pickFrom (photos.filter (fun p => p.matchCount == 0)) rs0 with _ | pA
      · rw [hpa] at h; dsimp only at h; cases h
      · rcases pA with ⟨cA, rs2⟩
        rw [hpa] at h
        dsimp only at h
        split at h
        · cases h
        · rename_i cB rs3 hpb
          have hinj : cA = a ∧ cB = b := by
            injection h with h1
            injection h1 with h2 h3
            injection h2 with h4 h5
            injection h5 with h6 h7
            exact ⟨h4, h6⟩
          rw [← hinj.1, ← hinj.2]
          have hA := pickFrom_mem hpa
          rw [List.mem_filter] at hA
          have hA0 : cA.matchCount = 0 := by
            have := hA.2
            simpa using this
          have hB := pickFrom_mem hpb
          by_cases hanc : 0 < (photos.filter (fun p =>
              decide (3 ≤ p.matchCount ∧ |p.rating - 1000| < 150))).length
          · rw [if_pos hanc, if_pos hanc] at hB
            rw [List.mem_filter] at hB
            have hB3 : 3 ≤ cB.matchCount := by
              have := of_decide_eq_true hB.2
              exact this.1
            intro hab
            have : cA = cB := List.inj_on_of_nodup_map hnd hA.1 hB.1 hab
            rw [this] at hA0
            omega
          · rw [if_neg hanc] at hB
            by_cases hop : 0 < (photos.filter (fun p =>
                !(p.id == cA.id) && decide (0 < p.matchCount))).length
            · rw [if_pos hop] at hB
              rw [List.mem_filter] at hB
              have := hB.2
              rw [Bool.and_eq_true] at this
              have hne2 : ¬ (cB.id = cA.id) := by
                have h9 := this.1
                rw [Bool.not_eq_eq_eq_not] at h9
                simpa using h9
              intro hab
              exact hne2 hab.symm
            · rw [if_neg hop] at hB
              rw [List.mem_filter] at hB
              have hne2 : ¬ (cB.id = cA.id) := by
                have h9 := hB.2
                rw [Bool.not_eq_eq_eq_not] at h9
                simpa using h9
              intro hab
              exact hne2 hab.symm
    · rw [if_neg hplace] at h
      by_cases hexp : r < (0.2 : ℚ)
      · rw [if_pos hexp] at h
        rcases hpi : pickIdx photos.length rs0 with _ | ip
        · rw [hpi] at h; cases h
        · rcases ip with ⟨idxA, rs2⟩
          rw [hpi] at h
          dsimp only at h
          rcases hdd : drawDistinctIdx photos.length idxA rs2 with _ | ip2
          · rw [hdd] at h; cases h
          · rcases ip2 with ⟨idxB, rs3⟩
            rw [hdd] at h
            dsimp only at h
            rcases hga : getAtInt photos idxA with _ | pa2
            · rw [hga] at h; cases h
            · rw [hga] at h
              rcases hgb : getAtInt photos idxB with _ | pb2
              · rw [hgb] at h; cases h
              · rw [hgb] at h
                dsimp only at h
                have hinj : pa2 = a ∧ pb2 = b := by
                  injection h with h1
                  injection h1 with h2 h3
                  injection h2 with h4 h5
                  injection h5 with h6 h7
                  exact ⟨h4, h6⟩
                rw [← hinj.1, ← hinj.2]
                have hA := getAtInt_some hga
                have hB := getAtInt_some hgb
                have hne : idxB ≠ idxA := drawDistinctIdx_ne hdd
                have hnat : idxA.toNat ≠ idxB.toNat := by
                  intro hteq
                  apply hne
                  have e1 := Int.toNat_of_nonneg hA.2
                  have e2 := Int.toNat_of_nonneg hB.2
                  rw [← e1, ← e2, hteq]
                exact nodup_ids_getElem_ne photos hnd _ _ pa2 pb2 hA.1 hB.1 hnat
      · rw [if_neg hexp] at h
        split at h
        · cases h
        · rename_i cA rs2 hpa
          split at h
          · cases h
          · rename_i cB hbest
            have hinj : cA = a ∧ cB = b := by
              injection h with h1
              injection h1 with h2 h3
              injection h2 with h4 h5
              injection h5 with h6 h7
              exact ⟨h4, h6⟩
            rw [← hinj.1, ← hinj.2]
            rcases hscan : bestMatchScan cA photos none with _ | pr
            · rw [hscan] at hbest
              dsimp only at hbest
              have h9 := List.find?_some hbest
              have hne2 : ¬ (cB.id = cA.id) := by
                rw [Bool.not_eq_eq_eq_not] at h9
                simpa using h9
              intro hab
              exact hne2 hab.symm
            · rcases pr with ⟨b2, m2⟩
              rw [hscan] at hbest
              dsimp only at hbest
              have hb2 : b2 = cB := by injection hbest
              have hne2 : ¬ (b2.id = cA.id) :=
                bestMatchScan_ne cA photos none b2 m2 (by intro p q hpq; cases hpq) hscan
              rw [hb2] at hne2
              intro hab
              exact hne2 hab.symm

theorem fallbackSelect_distinct (photos : List (RankedPhoto ℚ)) (rs : List ℚ)
    (a b : RankedPhoto ℚ) (ctx : BattleContext) (rs1 : List ℚ)
    (hnd : (photos.map (fun p => p.id)).Nodup)
    (h : fallbackSelect photos rs = some ((a, b, ctx), rs1)) : a.id ≠ b.id := by
  unfold fallbackSelect at h
  rcases hpi : pickIdx photos.length rs with _ | ip
  · rw [hpi] at h; cases h
  · rcases ip with ⟨idxA, rs2⟩
    rw [hpi] at h
    dsimp only at h
    rcases hdd : drawDistinctIdx photos.length idxA rs2 with _ | ip2
    · rw [hdd] at h; cases h
    · rcases ip2 with ⟨idxB, rs3⟩
      rw [hdd] at h
      dsimp only at h
      rcases hga : getAtInt photos idxA with _ | pa2
      · rw [hga] at h; cases h
      · rw [hga] at h
        rcases hgb : getAtInt photos idxB with _ | pb2
        · rw [hgb] at h; cases h
        · rw [hgb] at h
          dsimp only at h
          have hinj : pa2 = a ∧ pb2 = b := by
            injection h with h1
            injection h1 with h2 h3
            injection h2 with h4 h5
            injection h5 with h6 h7
            exact ⟨h4, h6⟩
          rw [← hinj.1, ← hinj.2]
          have hA := getAtInt_some hga
          have hB := getAtInt_some hgb
          have hne : idxB ≠ idxA := drawDistinctIdx_ne hdd
          have hnat : idxA.toNat ≠ idxB.toNat := by
            intro hteq
            apply hne
            have e1 := Int.toNat_of_nonneg hA.2
            have e2 := Int.toNat_of_nonneg hB.2
            rw [← e1, ← e2, hteq]
          exact nodup_ids_getElem_ne photos hnd _ _ pa2 pb2 hA.1 hB.1 hnat

theorem attemptLoop_distinct (photos : List (RankedPhoto ℚ)) (lastPair : List String)
    (k : Nat) (rs : List ℚ) (a b : RankedPhoto ℚ) (ctx : BattleContext) (rs1 : List ℚ)
    (hnd : (photos.map (fun p => p.id)).Nodup)
    (h : attemptLoop photos lastPair k rs = some ((a, b, ctx), rs1)) : a.id ≠ b.id := by
  induction k generalizing rs with
  | zero => exact fallbackSelect_distinct photos rs a b ctx rs1 hnd h
  | succ k ih =>
    unfold attemptLoop at h
    rcases hs : sampleAttempt photos rs with _ | pr
    · rw [hs] at h; cases h
    · rcases pr with ⟨⟨a2, b2, ctx2⟩, rs2⟩
      rw [hs] at h
      dsimp only at h
      by_cases hrep :
          (!(lastPair.contains a2.id && lastPair.contains b2.id) || (k == 0)) = true
      · rw [if_pos hrep] at h
        have hinj : a2 = a ∧ b2 = b := by
          injection h with h1
          injection h1 with h2 h3
          injection h2 with h4 h5
          injection h5 with h6 h7
          exact ⟨h4, h6⟩
        rw [← hinj.1, ← hinj.2]
        exact sampleAttempt_distinct photos rs a2 b2 ctx2 rs2 hnd hs
      · rw [if_neg hrep] at h
        exact ih rs2 h

/-- Claim C8: on a snapshot of at least two items (with the pairwise
distinct ids every replayer snapshot has), whenever selectNextPair returns
a pair -- whatever the random draws, in the placement, exploration and
refinement policies and in every fallback -- the two returned items have
distinct ids. -/
theorem selectNextPair_no_self_match (photos : List (RankedPhoto ℚ))
    (lastPair : List String) (rs : List ℚ) (a b : RankedPhoto ℚ) (ctx : BattleContext)
    (hlen : 2 ≤ photos.length)
    (hnd : (photos.map (fun p => p.id)).Nodup)
    (heq : selectNextPair photos lastPair rs = SelectOutcome.pair a b ctx) :
    a.id ≠ b.id := by
  unfold selectNextPair at heq
  rw [if_neg (by omega : ¬ photos.length < 2)] at heq
  dsimp only at heq
  rw [List.filter_true] at heq
  rcases hA : attemptLoop photos lastPair MAX_ATTEMPTS rs with _ | pr
  · rw [hA] at heq; cases heq
  · rcases pr with ⟨⟨a2, b2, ctx2⟩, rs2⟩
    rw [hA] at heq
    dsimp only at heq
    have hd := attemptLoop_distinct photos lastPair MAX_ATTEMPTS rs a2 b2 ctx2 rs2 hnd hA
    rcases hq : drawQ rs2 with _ | rp
    · rw [hq] at heq; cases heq
    · rcases rp with ⟨r, rest⟩
      rw [hq] at heq
      dsimp only at heq
      by_cases hr : (0.5 : ℚ) < r
      · rw [if_pos hr] at heq
        have hinj : a2 = a ∧ b2 = b := by
          injection heq with h1 h2 h3
          exact ⟨h1, h2⟩
        rw [← hinj.1, ← hinj.2]
        exact hd
      · rw [if_neg hr] at heq
        have hinj : b2 = a ∧ a2 = b := by
          injection heq with h1 h2 h3
          exact ⟨h1, h2⟩
        rw [← hinj.1, ← hinj.2]
        intro hab
        exact hd hab.symm

/-- Claim C4: selectNextPair fails with the insufficient-items outcome
exactly when called with fewer than 2 items; with two or more it never
produces that outcome (the failure is per-call and the caller can simply
call again once more data exists). -/
theorem selectNextPair_insufficient_iff (photos : List (RankedPhoto ℚ))
    (lastPair : List String) (rs : List ℚ) :
    selectNextPair photos lastPair rs = SelectOutcome.insufficient ↔
      photos.length < 2 := by
  unfold selectNextPair
  by_cases h : photos.length < 2
  · rw [if_pos h]
    simp [h]
  · rw [if_neg h]
    dsimp only
    constructor
    · intro hc
      exfalso
      rcases hA : attemptLoop (photos.filter fun _ => true) lastPair MAX_ATTEMPTS rs
        with _ | pr
      · rw [hA] at hc
        exact SelectOutcome.noConfusion hc
      · rcases pr with ⟨⟨a2, b2, ctx2⟩, rs2⟩
        rw [hA] at hc
        dsimp only at hc
        rcases hq : drawQ rs2 with _ | rp
        · rw [hq] at hc
          exact SelectOutcome.noConfusion hc
        · rcases rp with ⟨r, rest⟩
          rw [hq] at hc
          dsimp only at hc
          by_cases hr : (0.5 : ℚ) < r
          · rw [if_pos hr] at hc
            exact SelectOutcome.noConfusion hc
          · rw [if_neg hr] at hc
            exact SelectOutcome.noConfusion hc
    · intro hc
      exact absurd hc h

set_option maxRecDepth 10000 in
theorem selectNextPair_no_self_match_witness :
    2 ≤ ([qpA, qpB] : List (RankedPhoto ℚ)).length ∧
    (([qpA, qpB] : List (RankedPhoto ℚ)).map (fun p => p.id)).Nodup ∧
    selectNextPair [qpA, qpB] [] [0, 0, 1/2, 9/10] =
      SelectOutcome.pair qpA qpB ctxExploration ∧
    qpA.id ≠ qpB.id := by
  have hsel : selectNextPair [qpA, qpB] [] [0, 0, 1/2, 9/10] =
      SelectOutcome.pair qpA qpB ctxExploration := by
    with_unfolding_all rfl
  refine ⟨by norm_num, by decide, hsel, ?_⟩
  exact selectNextPair_no_self_match [qpA, qpB] [] [0, 0, 1/2, 9/10]
    qpA qpB ctxExploration (by norm_num) (by decide) hsel
